import Mathlib

/-!
# Verification of the self-evolution monitor core

A shallow embedding of the change-detection / locking / conflict-arbitration
engine implemented by `SelfEvolutionMonitor` in `Util/Self-evolution.py`,
together with theorems settling the claims of the spec about it.

Conventions of the embedding:
* Paths, hashes and timestamps are `String`s; the content of the ledger file
  is a `List String` of its lines.
* Filesystem reads that the Python code performs (`calculate_file_hash`,
  reading a lock sentinel, the rule-file list, the project-file scan, the
  mode read from `rules_loader`, the user-activity probe, and the outcome of
  the check/fix outcome of the external rule engine) are supplied through an explicit
  environment record `Env`, one field per external observation, so that each
  monitor function becomes a pure function of that environment.
* `calculate_file_hash` returns `None` on any I/O failure or when the file
  does not exist; the environment field `hashOf` therefore has type
  `String → Option String` and already incorporates that behaviour.
* Logging calls are dropped: they do not influence any control flow.
-/

namespace SelfEvolution

/-- The `str.strip` of Python on a list of characters: drop whitespace from both
ends (embedding of the `.strip()` calls in `add_files_to_todo` and
`is_file_locked`). -/
def stripChars (l : List Char) : List Char :=
  ((l.dropWhile Char.isWhitespace).reverse.dropWhile Char.isWhitespace).reverse

/-- The `str.strip` of Python on strings. -/
def pyStrip (s : String) : String :=
  String.mk (stripChars s.data)

/-- Is the first list a prefix of the second? -/
def prefixEq : List Char → List Char → Bool
  | [], _ => true
  | _ :: _, [] => false
  | a :: as, b :: bs => a = b && prefixEq as bs

/-- Does `sub` occur as a contiguous sublist of `l`? -/
def occursIn (sub : List Char) : List Char → Bool
  | [] => prefixEq sub []
  | b :: bs => prefixEq sub (b :: bs) || occursIn sub bs

/-- The Python substring test `sub in s`
(the `"跳过处理" in resolution` checks). -/
def containsSub (sub s : String) : Bool :=
  occursIn sub.data s.data

/-- Does `s` begin with `pre`?  (Used to state that a conflict reason is the
lock-branch reason.) -/
def strBegins (pre s : String) : Bool :=
  prefixEq pre.data s.data

/-- Embedding of `SelfEvolutionMonitor.get_project_mode`: the mode string of
`rules_loader.get_project_mod_config()` when that config parses (`some m`),
and the literal default `"devP"` when the config is missing or unparseable
(`get_project_mod_config` returned `None`). -/
def getProjectMode (configMode : Option String) : String :=
  match configMode with
  | some m => m
  | none => "devP"

/-- Embedding of `SelfEvolutionMonitor.should_execute_evolution`:
`devP` always executes, any other mode executes only while the user is
inactive. -/
def shouldExecuteEvolution (configMode : Option String) (userActive : Bool) : Bool :=
  if getProjectMode configMode = "devP" then true
  else !userActive

/-- The external observations `SelfEvolutionMonitor` makes, one field per
read the Python methods perform.  `lockContent p` is the state of the lock
sentinel for `p`: `none` when the sentinel file does not exist, `some none`
when it exists but reading it raises, `some (some s)` when it exists with
content `s`.  `acquireOk p` is the outcome of the `acquire_file_lock` call
that `resolve_path_conflict` makes for `p`.  `checkFile p` is the triple
`(is_compliant, issues, update_content keys)` that `check_file_compliance`
returns for `p`, and `updateOk p` the outcome of `update_file_compliance`. -/
structure Env where
  configMode : Option String
  userActive : Bool
  lockContent : String → Option (Option String)
  acquireOk : String → Bool
  tsOf : String → String
  hashOf : String → Option String
  ruleFiles : List String
  projectFiles : List String
  todoPath : String
  checkFile : String → Bool × List String × List String
  updateOk : String → Bool

/-- Embedding of `SelfEvolutionMonitor.is_file_locked`: missing sentinel and
unreadable sentinel both give `(False, None)`; a readable sentinel gives
`(True, content.strip())`. -/
def isFileLocked (env : Env) (p : String) : Bool × Option String :=
  match env.lockContent p with
  | none => (false, none)
  | some none => (false, none)
  | some (some s) => (true, some (pyStrip s))

/-- Embedding of `SelfEvolutionMonitor.check_path_conflicts`.  The lock
branch fires only when `is_file_locked` returned `True` *and* the lock info
string is truthy (non-`None`, nonempty) — `if is_locked and lock_info:`. -/
def checkPathConflicts (env : Env) (p : String) : Bool × String :=
  let mode := getProjectMode env.configMode
  let lk := isFileLocked env p
  if lk.1 && !((lk.2.getD "") = "") then
    (true, "文件被锁定: " ++ lk.2.getD "")
  else if mode = "devP" then
    if env.userActive then (false, "devP模式下自我进化优先级高于人工")
    else (false, "无用户活动")
  else if mode = "proD" then
    if env.userActive then (true, "proD模式下用户活动优先级高于自我进化")
    else (false, "无用户活动")
  else
    if env.userActive then (true, "未知模式下用户活动优先级高于自我进化")
    else (false, "无冲突")

/-- Embedding of `SelfEvolutionMonitor.resolve_path_conflict` (conflict-log
writes dropped): under `devP` it attempts `acquire_file_lock` and reports
forced execution or a skip; under every other mode it returns the
skip resolution without touching the lock. -/
def resolvePathConflict (env : Env) (p : String) (_reason : String) : String :=
  if getProjectMode env.configMode = "devP" then
    if env.acquireOk p then "devP模式下强制获取锁，执行自我进化"
    else "无法获取文件锁，跳过处理"
  else "proD模式下跳过处理，尊重用户活动"

/-! ## Change detection (`check_rule_files_changes` / `check_project_files_changes`) -/

/-- The hash caches `rules_hash_cache` / `project_files_hash_cache`: a Python
dict from path to the last stored result of `calculate_file_hash` (which can
itself be `None`, since line 300 stores `current_hash` unconditionally). -/
abbrev HashCache := List (String × Option String)

/-- Dict lookup (`file_path in cache` / `cache[file_path]`). -/
def cacheLookup : HashCache → String → Option (Option String)
  | [], _ => none
  | e :: rest, p => if e.1 = p then some e.2 else cacheLookup rest p

/-- Dict update `cache[file_path] = v`: replace the first binding of the key,
or append a new binding (Python dicts keep insertion order). -/
def cacheInsert : HashCache → String → Option String → HashCache
  | [], p, v => [(p, v)]
  | e :: rest, p, v => if e.1 = p then (p, v) :: rest else e :: cacheInsert rest p v

/-- One iteration of the change-scan loop shared by
`check_rule_files_changes` (no todo-file exclusion, `todoEx = none`) and
`check_project_files_changes` (`todoEx = some todo_file_path`):
a path not yet in the cache is baselined (only when its hash computed) and
never reported; a cached path is reported exactly when the fresh
`calculate_file_hash` result differs from the cached one, and the fresh
result is stored back. -/
def changeStep (todoEx : Option String) (hashOf : String → Option String)
    (acc : List String × HashCache) (p : String) : List String × HashCache :=
  let h := hashOf p
  match cacheLookup acc.2 p with
  | none => if h.isSome then (acc.1, cacheInsert acc.2 p h) else acc
  | some old =>
    if h ≠ old then
      ((if todoEx = some p then acc.1 else acc.1 ++ [p]), cacheInsert acc.2 p h)
    else acc

/-- The change-scan loop over a list of candidate files. -/
def checkFilesChanges (todoEx : Option String) (hashOf : String → Option String)
    (files : List String) (cache : HashCache) : List String × HashCache :=
  files.foldl (changeStep todoEx hashOf) ([], cache)

/-- Embedding of `SelfEvolutionMonitor.check_rule_files_changes`. -/
def checkRuleFilesChanges (env : Env) (cache : HashCache) : List String × HashCache :=
  checkFilesChanges none env.hashOf env.ruleFiles cache

/-- Embedding of `SelfEvolutionMonitor.check_project_files_changes`
(the own path of the todo ledger is excluded from the reported change set). -/
def checkProjectFilesChanges (env : Env) (cache : HashCache) : List String × HashCache :=
  checkFilesChanges (some env.todoPath) env.hashOf env.projectFiles cache

/-! ## The todo ledger (`add_files_to_todo`) -/

/-- The header comment line written by `add_files_to_todo`. -/
def todoHeader : String := "# 待处理文件路径|优先级|添加时间"

/-- Parsing of one existing ledger line in `add_files_to_todo`: strip the
line, skip blank lines and `#` comments, otherwise take the path column
(`line.split(chr(124), 1)[0].strip()`). -/
def entryPath (line : String) : Option String :=
  let l := pyStrip line
  if l = "" then none
  else if strBegins "#" l then none
  else some (pyStrip (String.mk (l.data.takeWhile (fun c => c ≠ '|'))))

/-- The `existing_files` set read from the current ledger content. -/
def existingPaths (ledger : List String) : List String :=
  ledger.filterMap entryPath

/-- The priority column: `HIGH` when `project_mode == devP`, else `LOW`. -/
def priorityOf (env : Env) : String :=
  if getProjectMode env.configMode = "devP" then "HIGH" else "LOW"

/-- The data line appended for a surviving path:
`f"{file_path}|{priority}|{datetime.now().isoformat()}"`, the timestamp
being the `tsOf` observation of the environment for the path. -/
def mkTodoLine (env : Env) (p : String) : String :=
  p ++ "|" ++ priorityOf env ++ "|" ++ env.tsOf p

/-- The paths of `files` that survive the per-path filtering of
`add_files_to_todo`: a path already claimed by the ledger is dropped, and a
conflicting path whose resolution contains `"跳过处理"` is dropped. -/
def todoSurvivors (env : Env) (existing : List String) (files : List String) :
    List String :=
  files.filter (fun p =>
    ¬ p ∈ existing ∧
      ((checkPathConflicts env p).1 = false ∨
        containsSub "跳过处理" (resolvePathConflict env p (checkPathConflicts env p).2)
          = false))

/-- Embedding of `SelfEvolutionMonitor.add_files_to_todo`, as a function from
the current lines of the ledger file to its lines after the call: when any path
survives, the file is opened in append mode and receives the header comment
line followed by one data line per surviving path; otherwise it is left
untouched. -/
def addFilesToTodo (env : Env) (ledger : List String) (files : List String) :
    List String :=
  let survivors := todoSurvivors env (existingPaths ledger) files
  if survivors = [] then ledger
  else ledger ++ todoHeader :: survivors.map (mkTodoLine env)

/-! ## Compliance pass and monitor cycle
(`check_project_files_compliance`, `process_files_for_compliance`,
`run_monitor_cycle`) -/

/-- One per-file compliance result: `(is_compliant, issues, update_info)`. -/
abbrev FileResult := Bool × List String × List String

/-- Dict update for the `results` dict of `check_project_files_compliance`. -/
def resultsInsert : List (String × FileResult) → String → FileResult →
    List (String × FileResult)
  | [], p, v => [(p, v)]
  | e :: rest, p, v =>
    if e.1 = p then (p, v) :: rest else e :: resultsInsert rest p v

/-- Embedding of `SelfEvolutionMonitor.check_project_files_compliance`: each
file is first run through the conflict check; a conflict whose resolution
contains `"跳过处理"` records non-compliant with the conflict reason and empty
update info, otherwise the external check result is recorded. -/
def checkProjectFilesCompliance (env : Env) (files : List String) :
    List (String × FileResult) :=
  files.foldl
    (fun results p =>
      let hc := checkPathConflicts env p
      if hc.1 && containsSub "跳过处理" (resolvePathConflict env p hc.2) then
        resultsInsert results p (false, [hc.2], [])
      else
        resultsInsert results p (env.checkFile p))
    []

/-- Is a per-file result counted toward `updated_files` by
`process_files_for_compliance`?  Yes when it is non-compliant with nonempty
issues and update info and `update_file_compliance` succeeds for the path. -/
def countsUpdated (env : Env) (r : String × FileResult) : Bool :=
  !r.2.1 && !(r.2.2.1 = []) && !(r.2.2.2 = []) && env.updateOk r.1

/-- Embedding of `SelfEvolutionMonitor.process_files_for_compliance`:
`(total checked, successfully updated)` (the hash-cache refresh of updated
files is irrelevant to the claims and dropped). -/
def processFilesForCompliance (env : Env) (files : List String) : Nat × Nat :=
  let results := checkProjectFilesCompliance env files
  (results.length, (results.filter (countsUpdated env)).length)

/-- Mutable state threaded across monitor cycles. -/
structure CycleState where
  rulesCache : HashCache
  projCache : HashCache
  ledger : List String

/-- Observable outcome of one `run_monitor_cycle` call. -/
structure CycleOut where
  changedRules : List String
  changedProj : List String
  candidates : List String
  checked : Nat
  updated : Nat
  ledger : List String

/-- The candidate set `files_to_process` assembled by `run_monitor_cycle`:
any rule-file change escalates to the full project scan, otherwise exactly
the changed project files, otherwise nothing. -/
def cycleCandidates (env : Env) (changedRules changedProj : List String) :
    List String :=
  if ¬ changedRules = [] then env.projectFiles
  else if ¬ changedProj = [] then changedProj
  else []

/-- Embedding of `SelfEvolutionMonitor.run_monitor_cycle`: detect rule and
project changes, escalate the candidate set, and — when candidates exist and
`should_execute_evolution` allows it — run the compliance pass; when fewer
files were updated than checked, the *whole* candidate list is handed to
`add_files_to_todo`. -/
def runMonitorCycle (env : Env) (st : CycleState) : CycleOut :=
  let cr := checkRuleFilesChanges env st.rulesCache
  let cp := checkProjectFilesChanges env st.projCache
  let cands := cycleCandidates env cr.1 cp.1
  if ¬ cands = [] ∧ shouldExecuteEvolution env.configMode env.userActive = true then
    let counts := processFilesForCompliance env cands
    let ledger1 :=
      if counts.2 < counts.1 then addFilesToTodo env st.ledger cands else st.ledger
    ⟨cr.1, cp.1, cands, counts.1, counts.2, ledger1⟩
  else
    ⟨cr.1, cp.1, cands, 0, 0, st.ledger⟩

/-! ## The file lock (`acquire_file_lock`) as a small-step machine

`acquire_file_lock` polls: attempt exclusive creation of the sentinel
(`open` with exclusive mode x — atomic create-if-absent); on `FileExistsError`
stat the sentinel, unlink it when its age exceeds the 300-unit TTL, sleep,
and retry while the timeout budget lasts.  Each OS-visible action (create
attempt, stat, unlink, sleep) is one atomic step, because that is the
granularity the operating system guarantees; the clock advances one abstract
tick per step and sentinel creation stamps the current clock as mtime. -/

/-- Program counter inside one `acquire_file_lock` call. -/
inductive LockPC where
  | tryCreate
  | statCheck
  | unlinkStale
  | sleepRetry
  | finished (res : Bool)
deriving DecidableEq

/-- One caller of `acquire_file_lock`: its program counter and its remaining
iteration budget (the `while time.time() - start_time < timeout` check). -/
structure LockProc where
  pc : LockPC
  fuel : Nat
deriving DecidableEq

/-- One atomic step of a caller against the sentinel state. -/
def lockStep (sentinel : Option Nat) (clock : Nat) (p : LockProc) :
    Option Nat × LockProc :=
  match p.pc with
  | .finished _ => (sentinel, p)
  | .tryCreate =>
    match p.fuel with
    | 0 => (sentinel, ⟨.finished false, 0⟩)
    | Nat.succ f =>
      match sentinel with
      | none => (some clock, ⟨.finished true, f⟩)
      | some _ => (sentinel, ⟨.statCheck, Nat.succ f⟩)
  | .statCheck =>
    match sentinel with
    | some m =>
      if clock - m > 300 then (sentinel, ⟨.unlinkStale, p.fuel⟩)
      else (sentinel, ⟨.sleepRetry, p.fuel⟩)
    | none => (sentinel, ⟨.sleepRetry, p.fuel⟩)
  | .unlinkStale => (none, ⟨.sleepRetry, p.fuel⟩)
  | .sleepRetry => (sentinel, ⟨.tryCreate, p.fuel - 1⟩)

/-- Which of two concurrent callers acts next. -/
inductive Caller where
  | A
  | B
deriving DecidableEq

/-- Combined state of the sentinel, the clock, and two concurrent
`acquire_file_lock` callers. -/
structure LockSys where
  sentinel : Option Nat
  clock : Nat
  pa : LockProc
  pb : LockProc
deriving DecidableEq

/-- Scheduling one caller for one atomic step; the clock advances a tick. -/
def sysStep (s : LockSys) (w : Caller) : LockSys :=
  match w with
  | .A =>
    let r := lockStep s.sentinel s.clock s.pa
    ⟨r.1, s.clock + 1, r.2, s.pb⟩
  | .B =>
    let r := lockStep s.sentinel s.clock s.pb
    ⟨r.1, s.clock + 1, s.pa, r.2⟩

/-- Running a whole interleaving. -/
def sysRun (s : LockSys) (sched : List Caller) : LockSys :=
  sched.foldl sysStep s

/-- Did the `acquire_file_lock` call of a caller return `True`? -/
def succeeded (p : LockProc) : Bool :=
  p.pc = .finished true

/-! ## Concrete environments used to instantiate the theorems -/

/-- A baseline environment: dev mode, idle user, no sentinels, hashes fail,
no files. -/
def envBase : Env where
  configMode := some "devP"
  userActive := false
  lockContent := fun _ => none
  acquireOk := fun _ => true
  tsOf := fun _ => "2024-01-01T00:00:00"
  hashOf := fun _ => none
  ruleFiles := []
  projectFiles := []
  todoPath := "T"
  checkFile := fun _ => (true, [], [])
  updateOk := fun _ => true

/-- `proD` mode with an active user, no sentinel on any path, and a lock
manager that would grant any acquisition request. -/
def envProdActive : Env :=
  { envBase with configMode := some "proD", userActive := true }

/-! ## C1 — conflict resolution under `proD` / unknown modes -/

/-- C1, counterexample.  In `proD` mode with an active user the conflict
check on `b.py` reports a conflict, and `acquire_file_lock` would succeed
(`acquireOk` is constantly true), yet `resolve_path_conflict` returns the
unconditional skip resolution: it never attempts the acquisition and the
outcome is SKIPPED, not FORCED_WITH_LOCK as the claim states. -/
theorem c1_counterexample :
    (checkPathConflicts envProdActive "b.py").1 = true ∧
    envProdActive.acquireOk "b.py" = true ∧
    resolvePathConflict envProdActive "b.py"
        (checkPathConflicts envProdActive "b.py").2 =
      "proD模式下跳过处理，尊重用户活动" ∧
    containsSub "跳过处理"
        (resolvePathConflict envProdActive "b.py"
          (checkPathConflicts envProdActive "b.py").2) = true := by
  refine ⟨rfl, rfl, rfl, ?_⟩
  decide

/-- C1, amended.  Under any mode other than `devP` (hence under `proD` and
under unknown modes) `resolve_path_conflict` returns the skip resolution
without consulting the lock manager — for every value of `acquireOk`; the
lock-acquisition escalation exists only under `devP`, where success yields
the forced-execution resolution and failure yields a skip. -/
theorem c1_amended (env : Env) (p reason : String) :
    (getProjectMode env.configMode ≠ "devP" →
      resolvePathConflict env p reason = "proD模式下跳过处理，尊重用户活动" ∧
      containsSub "跳过处理" (resolvePathConflict env p reason) = true) ∧
    (getProjectMode env.configMode = "devP" →
      resolvePathConflict env p reason =
        (if env.acquireOk p then "devP模式下强制获取锁，执行自我进化"
         else "无法获取文件锁，跳过处理") ∧
      (env.acquireOk p = true →
        containsSub "跳过处理" (resolvePathConflict env p reason) = false)) := by
  constructor
  · intro h
    rw [resolvePathConflict, if_neg h]
    exact ⟨rfl, by decide⟩
  · intro h
    rw [resolvePathConflict, if_pos h]
    refine ⟨rfl, fun hacq => ?_⟩
    rw [hacq]
    decide

/-- C1, witness for the amended theorem, instantiated at the `proD`
environment with an active user. -/
theorem c1_witness :
    resolvePathConflict envProdActive "b.py" "r" =
      "proD模式下跳过处理，尊重用户活动" ∧
    containsSub "跳过处理" (resolvePathConflict envProdActive "b.py" "r") = true :=
  (c1_amended envProdActive "b.py" "r").1 (by decide)

/-! ## C2 — the should-execute decision -/

/-- C2, counterexample.  A missing mode source (`get_project_mod_config`
returned `None`) makes `should_execute_evolution` return `True` even while
the user is active, whereas the `proD` treatment the claim prescribes for a
missing mode returns `False` there. -/
theorem c2_counterexample :
    shouldExecuteEvolution none true = true ∧
    shouldExecuteEvolution (some "proD") true = false := by
  decide

/-- C2, amended.  `devP` always proceeds; `proD` proceeds exactly while the
user is inactive; any mode string other than `devP` is treated like `proD`;
but a missing or unparseable mode source defaults to `devP` and therefore
always proceeds. -/
theorem c2_amended :
    (∀ a, shouldExecuteEvolution (some "devP") a = true) ∧
    (∀ a, shouldExecuteEvolution (some "proD") a = !a) ∧
    (∀ m a, m ≠ "devP" →
      shouldExecuteEvolution (some m) a = shouldExecuteEvolution (some "proD") a) ∧
    (∀ a, shouldExecuteEvolution none a = shouldExecuteEvolution (some "devP") a) := by
  refine ⟨fun a => rfl, fun a => by cases a <;> rfl, fun m a hm => ?_, fun a => rfl⟩
  rw [shouldExecuteEvolution, shouldExecuteEvolution]
  rw [if_neg (by simpa [getProjectMode] using hm), if_neg (by decide)]

/-- C2, witness for the amended theorem: the unknown mode string `xyz` is
treated like `proD`. -/
theorem c2_witness :
    shouldExecuteEvolution (some "xyz") true =
      shouldExecuteEvolution (some "proD") true :=
  c2_amended.2.2.1 "xyz" true (by decide)

/-! ## C10 — empty or unreadable lock sentinels -/

/-- An environment whose sentinel for every path exists with empty
content. -/
def envEmptySentinel : Env :=
  { envBase with lockContent := fun _ => some (some "") }

/-- C10, counterexample.  For a sentinel that exists with empty content the
lock query `is_file_locked` answers `(True, "")` — it does *not* treat the
path as unlocked, contrary to the claim (only the conflict check ignores
such a lock). -/
theorem c10_counterexample :
    isFileLocked envEmptySentinel "p" = (true, some "") := by
  decide

/-- C10, amended.  An unreadable sentinel makes the lock query report
`(False, None)`; a sentinel with empty content makes it report
`(True, "")`; in both cases the conflict check never raises its lock-based
conflict (whose reason starts with `文件被锁定`), because that branch
requires a truthy lock-info string. -/
theorem c10_amended (env : Env) (p : String) :
    (env.lockContent p = some none →
      isFileLocked env p = (false, none) ∧
      strBegins "文件被锁定" (checkPathConflicts env p).2 = false) ∧
    (env.lockContent p = some (some "") →
      isFileLocked env p = (true, some "") ∧
      strBegins "文件被锁定" (checkPathConflicts env p).2 = false) := by
  have hmode : ∀ q : Bool × String,
      (if getProjectMode env.configMode = "devP" then
        if env.userActive then (false, "devP模式下自我进化优先级高于人工")
        else ((false, "无用户活动") : Bool × String)
      else if getProjectMode env.configMode = "proD" then
        if env.userActive then (true, "proD模式下用户活动优先级高于自我进化")
        else (false, "无用户活动")
      else
        if env.userActive then (true, "未知模式下用户活动优先级高于自我进化")
        else (false, "无冲突")) = q →
      strBegins "文件被锁定" q.2 = false := by
    intro q hq
    subst hq
    split
    · cases env.userActive <;> decide
    · split
      · cases env.userActive <;> decide
      · cases env.userActive <;> decide
  constructor
  · intro h
    have hlk : isFileLocked env p = (false, none) := by
      rw [isFileLocked, h]
    refine ⟨hlk, ?_⟩
    rw [checkPathConflicts]
    rw [hlk]
    exact hmode _ (by rfl)
  · intro h
    have hlk : isFileLocked env p = (true, some "") := by
      rw [isFileLocked, h]
      rfl
    refine ⟨hlk, ?_⟩
    rw [checkPathConflicts]
    rw [hlk]
    exact hmode _ (by rfl)

/-- C10, witness for the amended theorem, at an environment with an
unreadable sentinel. -/
theorem c10_witness :
    isFileLocked { envBase with lockContent := fun _ => some none } "p" =
        (false, none) ∧
    strBegins "文件被锁定"
        (checkPathConflicts { envBase with lockContent := fun _ => some none }
          "p").2 = false :=
  (c10_amended { envBase with lockContent := fun _ => some none } "p").1 rfl

/-! ## C9 — ledger line format, append-only writes, and the header -/

/-- C9, counterexample.  Two successive enqueues, each with a fresh path,
against a ledger that starts empty: the first write emits the header and one
data line, but the second write emits the header *again* — `open(..., 'a')`
writes the header comment on every batch, not only on the first write.  The
claim (header only on first write) would give a header count of 1. -/
theorem c9_counterexample :
    List.count todoHeader (addFilesToTodo envBase [] ["a"]) = 1 ∧
    List.count todoHeader
        (addFilesToTodo envBase (addFilesToTodo envBase [] ["a"]) ["b"]) = 2 := by
  decide

/-- C9, amended.  Whenever some path survives the dedup/conflict filtering,
the enqueue appends — never rewriting the existing lines — the header
comment line (on *every* such write, not only the first) followed by exactly
one data line per surviving path of the form
`path|PRIORITY|timestamp`, with priority `HIGH` under `devP` and `LOW`
under every other mode. -/
theorem c9_amended (env : Env) (ledger files : List String)
    (h : ¬ todoSurvivors env (existingPaths ledger) files = []) :
    List.take ledger.length (addFilesToTodo env ledger files) = ledger ∧
    List.drop ledger.length (addFilesToTodo env ledger files) =
      todoHeader ::
        (todoSurvivors env (existingPaths ledger) files).map (mkTodoLine env) ∧
    ∀ p, mkTodoLine env p =
      p ++ "|" ++
        (if getProjectMode env.configMode = "devP" then "HIGH" else "LOW") ++
        "|" ++ env.tsOf p := by
  rw [addFilesToTodo]
  simp only [if_neg h]
  refine ⟨List.take_left ledger _, ?_, fun p => rfl⟩
  rw [List.drop_left ledger]

/-- C9, witness for the amended theorem, on a one-element enqueue against a
ledger holding one prior data line. -/
theorem c9_witness :
    List.take 1 (addFilesToTodo envBase ["d.py|HIGH|t0"] ["a"]) =
        ["d.py|HIGH|t0"] ∧
    List.drop 1 (addFilesToTodo envBase ["d.py|HIGH|t0"] ["a"]) =
      todoHeader ::
        (todoSurvivors envBase (existingPaths ["d.py|HIGH|t0"]) ["a"]).map
          (mkTodoLine envBase) ∧
    ∀ p, mkTodoLine envBase p =
      p ++ "|" ++
        (if getProjectMode envBase.configMode = "devP" then "HIGH" else "LOW") ++
        "|" ++ envBase.tsOf p :=
  c9_amended envBase ["d.py|HIGH|t0"] ["a"] (by decide)

/-! ## C4 — escalation of the candidate set -/

/-- C4.  In every monitor cycle: when some rule file changed, the candidate
set handed to remediation is the entire project-file population; when no
rule file changed, it is exactly the changed project files (in particular,
empty when nothing changed). -/
theorem c4_escalation (env : Env) (st : CycleState) :
    (¬ (runMonitorCycle env st).changedRules = [] →
      (runMonitorCycle env st).candidates = env.projectFiles) ∧
    ((runMonitorCycle env st).changedRules = [] →
      (runMonitorCycle env st).candidates = (runMonitorCycle env st).changedProj) := by
  have hfields :
      (runMonitorCycle env st).changedRules =
          (checkRuleFilesChanges env st.rulesCache).1 ∧
      (runMonitorCycle env st).changedProj =
          (checkProjectFilesChanges env st.projCache).1 ∧
      (runMonitorCycle env st).candidates =
        cycleCandidates env (checkRuleFilesChanges env st.rulesCache).1
          (checkProjectFilesChanges env st.projCache).1 := by
    rw [runMonitorCycle]
    split <;> exact ⟨rfl, rfl, rfl⟩
  obtain ⟨h1, h2, h3⟩ := hfields
  rw [h1, h2, h3]
  constructor
  · intro h
    rw [cycleCandidates, if_pos h]
  · intro h
    rw [cycleCandidates, if_neg (by simp [h]), ]
    split
    · rfl
    · rename_i hcp
      simp only [Decidable.not_not] at hcp
      rw [hcp]

/-- C4, witness: a cycle in which only the project file `a` changed — the
candidate set equals the changed project files. -/
theorem c4_witness :
    (runMonitorCycle
        { envBase with
            projectFiles := ["a"],
            hashOf := fun _ => some "new" }
        ⟨[], [("a", some "old")], []⟩).candidates =
      (runMonitorCycle
        { envBase with
            projectFiles := ["a"],
            hashOf := fun _ => some "new" }
        ⟨[], [("a", some "old")], []⟩).changedProj :=
  (c4_escalation
      { envBase with projectFiles := ["a"], hashOf := fun _ => some "new" }
      ⟨[], [("a", some "old")], []⟩).2 (by decide)

/-! ## C8 — which paths reach the ledger after a partial fix pass -/

/-- The cycle environment of the C8 failing input: two project files `a` and
`b`, both changed and both non-compliant; the fix succeeds for `a` and fails
for `b`; no conflicts anywhere. -/
def envFixPass : Env :=
  { envBase with
      projectFiles := ["a", "b"],
      hashOf := fun p =>
        if p = "a" then some "1x" else if p = "b" then some "2x" else none,
      checkFile := fun _ => (false, ["issue"], ["encoding_declaration"]),
      updateOk := fun p => p = "a" }

/-- The cycle state of the C8 failing input: both files tracked with stale
hashes, ledger empty. -/
def stFixPass : CycleState :=
  ⟨[], [("a", some "1"), ("b", some "2")], []⟩

/-- C8.  On the failing input, two files are checked, only `a` is
successfully fixed (`updateOk` holds for `a` alone), so by the claim only
`b` may be enqueued — yet the ledger after the cycle carries a data entry
for the successfully fixed `a` as well, because `run_monitor_cycle` hands
the *entire* candidate list to `add_files_to_todo`, contradicting its own
comment (line 409: add the *unprocessed* files to the todo list). -/
theorem c8_fixed_file_enqueued :
    (runMonitorCycle envFixPass stFixPass).checked = 2 ∧
    (runMonitorCycle envFixPass stFixPass).updated = 1 ∧
    envFixPass.updateOk "a" = true ∧
    List.count "a" (existingPaths (runMonitorCycle envFixPass stFixPass).ledger)
        = 1 ∧
    List.count "b" (existingPaths (runMonitorCycle envFixPass stFixPass).ledger)
        = 1 := by
  decide

/-! ## C3 — hash failures during a scan -/

/-- Cache lookup is unaffected by an update to a different key. -/
theorem cacheLookup_insert_ne (c : HashCache) (q p : String) (v : Option String)
    (h : ¬ q = p) : cacheLookup (cacheInsert c q v) p = cacheLookup c p := by
  induction c with
  | nil =>
    simp [cacheInsert, cacheLookup, h]
  | cons e rest ih =>
    rw [cacheInsert]
    by_cases he : e.1 = q
    · rw [if_pos he, cacheLookup, cacheLookup, if_neg h, if_neg]
      rw [he]
      exact h
    · rw [if_neg he, cacheLookup, cacheLookup]
      by_cases hep : e.1 = p
      · rw [if_pos hep, if_pos hep]
      · rw [if_neg hep, if_neg hep, ih]

/-- One scan step either keeps the reported list or appends the scanned
path. -/
theorem changeStep_fst (todoEx : Option String) (hashOf : String → Option String)
    (acc : List String × HashCache) (p : String) :
    (changeStep todoEx hashOf acc p).1 = acc.1 ∨
    (changeStep todoEx hashOf acc p).1 = acc.1 ++ [p] := by
  rw [changeStep]
  cases hc : cacheLookup acc.2 p
  · dsimp only
    split
    · exact Or.inl rfl
    · exact Or.inl rfl
  · dsimp only
    split
    · split
      · exact Or.inl rfl
      · exact Or.inr rfl
    · exact Or.inl rfl

/-- One scan step on `a` does not move the cached entry of `p ≠ a`. -/
theorem changeStep_lookup_ne (todoEx : Option String)
    (hashOf : String → Option String) (acc : List String × HashCache)
    (a p : String) (h : ¬ a = p) :
    cacheLookup (changeStep todoEx hashOf acc a).2 p = cacheLookup acc.2 p := by
  rw [changeStep]
  cases hc : cacheLookup acc.2 a
  · dsimp only
    split
    · exact cacheLookup_insert_ne _ _ _ _ h
    · rfl
  · dsimp only
    split
    · exact cacheLookup_insert_ne _ _ _ _ h
    · rfl

/-- Paths reported by a scan prefix stay reported. -/
theorem foldl_changes_mono (todoEx : Option String)
    (hashOf : String → Option String) (l : List String) :
    ∀ acc q, q ∈ acc.1 →
      q ∈ (List.foldl (changeStep todoEx hashOf) acc l).1 := by
  induction l with
  | nil => intro acc q hq; exact hq
  | cons p l ih =>
    intro acc q hq
    rw [List.foldl_cons]
    apply ih
    rcases changeStep_fst todoEx hashOf acc p with h | h
    · rw [h]; exact hq
    · rw [h]; exact List.mem_append_left _ hq

/-- A path reported by the scan was already reported or is one of the
scanned files. -/
theorem foldl_changes_mem (todoEx : Option String)
    (hashOf : String → Option String) (l : List String) :
    ∀ acc q, q ∈ (List.foldl (changeStep todoEx hashOf) acc l).1 →
      q ∈ acc.1 ∨ q ∈ l := by
  induction l with
  | nil => intro acc q h; exact Or.inl h
  | cons p l ih =>
    intro acc q h
    rw [List.foldl_cons] at h
    rcases ih _ q h with h1 | h1
    · rcases changeStep_fst todoEx hashOf acc p with h2 | h2
      · rw [h2] at h1; exact Or.inl h1
      · rw [h2] at h1
        rcases List.mem_append.mp h1 with h3 | h3
        · exact Or.inl h3
        · right
          rw [List.mem_singleton] at h3
          rw [h3]
          exact List.mem_cons_self _ _
    · exact Or.inr (List.mem_cons_of_mem _ h1)

/-- A tracked file whose fresh hash fails is reported as changed. -/
theorem foldl_changes_tracked (todoEx : Option String)
    (hashOf : String → Option String) (l : List String) :
    ∀ acc p h0, p ∈ l → l.Nodup →
      cacheLookup acc.2 p = some (some h0) → hashOf p = none →
      ¬ todoEx = some p →
      p ∈ (List.foldl (changeStep todoEx hashOf) acc l).1 := by
  induction l with
  | nil => intro acc p h0 hmem; cases hmem
  | cons a l ih =>
    intro acc p h0 hmem hnd hcache hhash hex
    rw [List.foldl_cons]
    rcases List.mem_cons.mp hmem with heq | hmem2
    · subst heq
      apply foldl_changes_mono
      have hstep : (changeStep todoEx hashOf acc p).1 = acc.1 ++ [p] := by
        rw [changeStep]
        rw [hcache]
        dsimp only
        rw [hhash, if_pos (by simp), if_neg hex]
      rw [hstep]
      exact List.mem_append_right _ (List.mem_singleton_self _)
    · have hne : ¬ a = p := by
        intro h
        rw [h] at hnd
        exact (List.nodup_cons.mp hnd).1 hmem2
      apply ih _ p h0 hmem2 (List.nodup_cons.mp hnd).2 _ hhash hex
      rw [changeStep_lookup_ne todoEx hashOf acc a p hne]
      exact hcache

/-- An untracked file whose fresh hash fails is neither baselined nor
reported as changed. -/
theorem foldl_changes_untracked (todoEx : Option String)
    (hashOf : String → Option String) (l : List String) :
    ∀ acc p, p ∈ l → l.Nodup →
      cacheLookup acc.2 p = none → hashOf p = none → ¬ p ∈ acc.1 →
      ¬ p ∈ (List.foldl (changeStep todoEx hashOf) acc l).1 := by
  induction l with
  | nil => intro acc p hmem; cases hmem
  | cons a l ih =>
    intro acc p hmem hnd hcache hhash hacc
    rw [List.foldl_cons]
    rcases List.mem_cons.mp hmem with heq | hmem2
    · subst heq
      have hstep : changeStep todoEx hashOf acc p = acc := by
        rw [changeStep]
        rw [hcache]
        dsimp only
        rw [hhash]
        rfl
      rw [hstep]
      intro hcontra
      rcases foldl_changes_mem todoEx hashOf l acc p hcontra with h | h
      · exact hacc h
      · exact (List.nodup_cons.mp hnd).1 h
    · have hne : ¬ a = p := by
        intro h
        rw [h] at hnd
        exact (List.nodup_cons.mp hnd).1 hmem2
      apply ih _ p hmem2 (List.nodup_cons.mp hnd).2 _ hhash _
      · rw [changeStep_lookup_ne todoEx hashOf acc a p hne]
        exact hcache
      · intro hcontra
        rcases changeStep_fst todoEx hashOf acc a with h2 | h2
        · rw [h2] at hcontra; exact hacc hcontra
        · rw [h2] at hcontra
          rcases List.mem_append.mp hcontra with h3 | h3
          · exact hacc h3
          · rw [List.mem_singleton] at h3
            exact hne h3.symm

/-- C3, counterexample.  The tracked project file `f` (cached hash `h`)
vanishes: `calculate_file_hash` returns `None`, which compares unequal to
the cached hash, so `check_project_files_changes` *does* report `f` in the
changed set — the claim says a file whose content cannot be hashed never
appears there. -/
theorem c3_counterexample :
    (checkProjectFilesChanges { envBase with projectFiles := ["f"] }
        [("f", some "h")]).1 = ["f"] := by
  decide

/-- C3, amended.  A file with no cache entry whose hash computation fails is
neither baselined nor reported changed, and the scan of the remaining files
continues; but a *tracked* file (cached hash present) whose hash computation
fails is reported as changed, because the failure value `None` compares
unequal to the stored hash. -/
theorem c3_amended (env : Env) (cache : HashCache) (p q h0 : String)
    (hnd : env.projectFiles.Nodup)
    (hp : p ∈ env.projectFiles) (hq : q ∈ env.projectFiles)
    (hfp : env.hashOf p = none) (hfq : env.hashOf q = none)
    (hex : ¬ env.todoPath = p)
    (htr : cacheLookup cache p = some (some h0))
    (hun : cacheLookup cache q = none) :
    p ∈ (checkProjectFilesChanges env cache).1 ∧
    ¬ q ∈ (checkProjectFilesChanges env cache).1 := by
  constructor
  · apply foldl_changes_tracked _ _ _ _ p h0 hp hnd htr hfp
    intro h
    exact hex (Option.some.inj h)
  · exact foldl_changes_untracked _ _ _ _ q hq hnd hun hfq (by intro h; cases h)

/-- C3, witness for the amended theorem: `f` is tracked and fails to hash,
`g` is untracked and fails to hash. -/
theorem c3_witness :
    "f" ∈ (checkProjectFilesChanges { envBase with projectFiles := ["f", "g"] }
        [("f", some "h")]).1 ∧
    ¬ "g" ∈ (checkProjectFilesChanges { envBase with projectFiles := ["f", "g"] }
        [("f", some "h")]).1 :=
  c3_amended { envBase with projectFiles := ["f", "g"] } [("f", some "h")]
    "f" "g" "h" (by decide) (by decide) (by decide) rfl rfl (by decide) (by decide)
    (by decide)

/-! ## C5 — ledger dedup on path -/

/-- `filterMap` by a function that is the identity on a list leaves the list
unchanged. -/
theorem filterMap_id_of {f : String → Option String} :
    ∀ l : List String, (∀ p ∈ l, f p = some p) → l.filterMap f = l := by
  intro l
  induction l with
  | nil => intro _; rfl
  | cons a l ih =>
    intro h
    rw [List.filterMap_cons, h a (List.mem_cons_self _ _),
      ih fun p hp => h p (List.mem_cons_of_mem _ hp)]

/-- The paths a ledger grows by during one enqueue are exactly the surviving
paths, provided each surviving path prints to a line that parses back to the
path itself. -/
theorem existingPaths_addFilesToTodo (env : Env) (ledger files : List String)
    (hwf : ∀ p ∈ files, entryPath (mkTodoLine env p) = some p)
    (hne : ¬ todoSurvivors env (existingPaths ledger) files = []) :
    existingPaths (addFilesToTodo env ledger files) =
      existingPaths ledger ++ todoSurvivors env (existingPaths ledger) files := by
  rw [addFilesToTodo]
  simp only [if_neg hne]
  rw [existingPaths, existingPaths, List.filterMap_append]
  congr 1
  rw [List.filterMap_cons_none (by decide : entryPath todoHeader = none),
    List.filterMap_map]
  apply filterMap_id_of
  intro p hp
  exact hwf p (List.mem_of_mem_filter hp)

/-- C5.  Enqueueing a path that already has a data entry in the ledger
leaves the number of data entries for that path unchanged, and — provided
the ledger already satisfies the at-most-one-entry-per-path invariant, the
incoming file list is duplicate-free, and every incoming path round-trips
through the line format — the invariant still holds after the enqueue. -/
theorem c5_dedup (env : Env) (ledger files : List String) (q : String)
    (hwf : ∀ p ∈ files, entryPath (mkTodoLine env p) = some p)
    (hnd : files.Nodup)
    (hq : q ∈ existingPaths ledger)
    (hone : ∀ r, (existingPaths ledger).count r ≤ 1) :
    (existingPaths (addFilesToTodo env ledger files)).count q =
      (existingPaths ledger).count q ∧
    ∀ r, (existingPaths (addFilesToTodo env ledger files)).count r ≤ 1 := by
  by_cases hempty : todoSurvivors env (existingPaths ledger) files = []
  · rw [addFilesToTodo]
    rw [if_pos hempty]
    exact ⟨rfl, hone⟩
  · have hout := existingPaths_addFilesToTodo env ledger files hwf hempty
    have hsurv_nodup : (todoSurvivors env (existingPaths ledger) files).Nodup :=
      List.Nodup.filter _ hnd
    have hmem_not_existing :
        ∀ r, r ∈ todoSurvivors env (existingPaths ledger) files →
          ¬ r ∈ existingPaths ledger := by
      intro r hr
      have := List.of_mem_filter hr
      exact (of_decide_eq_true this).1
    constructor
    · rw [hout, List.count_append]
      rw [List.count_eq_zero.mpr (fun hmem => hmem_not_existing q hmem hq)]
      exact Nat.add_zero _
    · intro r
      rw [hout, List.count_append]
      by_cases hr : r ∈ todoSurvivors env (existingPaths ledger) files
      · rw [List.count_eq_zero.mpr (hmem_not_existing r hr)]
        simpa using List.nodup_iff_count_le_one.mp hsurv_nodup r
      · rw [List.count_eq_zero.mpr hr]
        simpa using hone r

/-- C5, witness: the ledger already holds `d.py`; enqueueing `b` leaves the
`d.py` count unchanged and keeps the one-entry-per-path invariant. -/
theorem c5_witness :
    (existingPaths (addFilesToTodo envBase ["d.py|HIGH|t"] ["b"])).count "d.py" =
      (existingPaths ["d.py|HIGH|t"]).count "d.py" ∧
    ∀ r, (existingPaths (addFilesToTodo envBase ["d.py|HIGH|t"] ["b"])).count r ≤ 1 :=
  c5_dedup envBase ["d.py|HIGH|t"] ["b"] "d.py" (by decide) (by decide) (by decide)
    (List.nodup_iff_count_le_one.mp (by decide))

/-! ## C6 — staleness healing -/

/-- C6.  Whenever the sentinel exists with mtime `m` older than the 300-unit
TTL (`m + 300 < c`) and the timeout budget allows at least one retry
(`2 ≤ fuel`), a single `acquire_file_lock` caller runs
try-create → stat → unlink-stale → sleep → try-create and succeeds, ending
with a fresh sentinel of its own: the stale sentinel is removed and the call
returns `True` within its timeout. -/
theorem c6_stale_heals (m c fuel : Nat) (q : LockProc)
    (h1 : m + 300 < c) (h2 : 2 ≤ fuel) :
    succeeded (sysRun ⟨some m, c, ⟨.tryCreate, fuel⟩, q⟩
        [.A, .A, .A, .A, .A]).pa = true ∧
    (sysRun ⟨some m, c, ⟨.tryCreate, fuel⟩, q⟩
        [.A, .A, .A, .A, .A]).sentinel = some (c + 4) := by
  obtain ⟨f, rfl⟩ : ∃ f, fuel = f + 2 := ⟨fuel - 2, by omega⟩
  have e1 : sysStep ⟨some m, c, ⟨.tryCreate, f + 2⟩, q⟩ .A =
      ⟨some m, c + 1, ⟨.statCheck, f + 2⟩, q⟩ := rfl
  have e2 : sysStep ⟨some m, c + 1, ⟨.statCheck, f + 2⟩, q⟩ .A =
      ⟨some m, c + 2, ⟨.unlinkStale, f + 2⟩, q⟩ := by
    simp only [sysStep, lockStep]
    rw [if_pos (by omega : c + 1 - m > 300)]
  have e3 : sysStep ⟨some m, c + 2, ⟨.unlinkStale, f + 2⟩, q⟩ .A =
      ⟨none, c + 3, ⟨.sleepRetry, f + 2⟩, q⟩ := rfl
  have e4 : sysStep ⟨none, c + 3, ⟨.sleepRetry, f + 2⟩, q⟩ .A =
      ⟨none, c + 4, ⟨.tryCreate, f + 1⟩, q⟩ := rfl
  have e5 : sysStep ⟨none, c + 4, ⟨.tryCreate, f + 1⟩, q⟩ .A =
      ⟨some (c + 4), c + 5, ⟨.finished true, f⟩, q⟩ := rfl
  have hrun : sysRun ⟨some m, c, ⟨.tryCreate, f + 2⟩, q⟩ [.A, .A, .A, .A, .A] =
      ⟨some (c + 4), c + 5, ⟨.finished true, f⟩, q⟩ := by
    rw [sysRun]
    simp only [List.foldl_cons, List.foldl_nil]
    rw [e1, e2, e3, e4, e5]
  rw [hrun]
  exact ⟨rfl, rfl⟩

/-- C6, witness: scenario C of the spec — sentinel 400 ticks old, TTL 300,
default timeout budget. -/
theorem c6_witness :
    succeeded (sysRun ⟨some 0, 400, ⟨.tryCreate, 50⟩, ⟨.finished false, 0⟩⟩
        [.A, .A, .A, .A, .A]).pa = true ∧
    (sysRun ⟨some 0, 400, ⟨.tryCreate, 50⟩, ⟨.finished false, 0⟩⟩
        [.A, .A, .A, .A, .A]).sentinel = some (400 + 4) :=
  c6_stale_heals 0 400 50 ⟨.finished false, 0⟩ (by omega) (by omega)

/-! ## C7 — mutual exclusion of concurrent acquisitions -/

/-- Initial state of the C7 counterexample: a stale sentinel (mtime 0,
current clock 1000 with TTL 300) and two callers about to poll. -/
def raceInit : LockSys :=
  ⟨some 0, 1000, ⟨.tryCreate, 50⟩, ⟨.tryCreate, 50⟩⟩

/-- The interleaving of the C7 counterexample: both callers observe the
stale sentinel; A unlinks it and creates its own fresh sentinel; B then
executes its pending unlink — removing the sentinel A just created — and
creates another one. -/
def raceSched : List Caller :=
  [.A, .A, .B, .B, .A, .A, .A, .B, .B, .B]

/-- C7, counterexample.  Under the `raceSched` interleaving both concurrent
`acquire_file_lock` calls return `True`: the stat-then-unlink window of the
staleness healing lets caller B delete the sentinel caller A had just
created, so mutual exclusion fails — the claim says two concurrent calls
never both succeed. -/
theorem c7_counterexample :
    succeeded (sysRun raceInit raceSched).pa = true ∧
    succeeded (sysRun raceInit raceSched).pb = true := by
  decide

/-- The inductive invariant for C7: with `n` scheduler steps remaining,
no caller sits at the unlink action, any existing sentinel stays fresh
until the schedule ends (`clock + n ≤ mtime + 300`), a successful caller
implies the sentinel exists, and the two callers never both succeeded. -/
def LockInv (n : Nat) (s : LockSys) : Prop :=
  n ≤ 300 ∧
  ¬ s.pa.pc = .unlinkStale ∧
  ¬ s.pb.pc = .unlinkStale ∧
  (∀ m, s.sentinel = some m → s.clock + n ≤ m + 300) ∧
  ((s.pa.pc = .finished true ∨ s.pb.pc = .finished true) → ¬ s.sentinel = none) ∧
  ¬ (s.pa.pc = .finished true ∧ s.pb.pc = .finished true)

/-- `LockInv` unfolded on an explicit state. -/
theorem lockInv_mk (n : Nat) (sen : Option Nat) (clock : Nat)
    (pca pcb : LockPC) (fa fb : Nat) :
    LockInv n ⟨sen, clock, ⟨pca, fa⟩, ⟨pcb, fb⟩⟩ ↔
      (n ≤ 300 ∧ ¬ pca = .unlinkStale ∧ ¬ pcb = .unlinkStale ∧
       (∀ m, sen = some m → clock + n ≤ m + 300) ∧
       ((pca = .finished true ∨ pcb = .finished true) → ¬ sen = none) ∧
       ¬ (pca = .finished true ∧ pcb = .finished true)) :=
  Iff.rfl

/-- `LockInv` is preserved by every scheduled step, the count of remaining
steps decreasing by one. -/
theorem lockInv_step (n : Nat) (s : LockSys) (w : Caller)
    (h : LockInv (n + 1) s) : LockInv n (sysStep s w) := by
  rcases s with ⟨sen, clock, ⟨pca, fa⟩, ⟨pcb, fb⟩⟩
  obtain ⟨hn, hpa, hpb, hfresh, hsome, hboth⟩ := h
  replace hpa : ¬ pca = .unlinkStale := hpa
  replace hpb : ¬ pcb = .unlinkStale := hpb
  replace hfresh : ∀ m, sen = some m → clock + (n + 1) ≤ m + 300 := hfresh
  replace hsome : (pca = .finished true ∨ pcb = .finished true) → ¬ sen = none :=
    hsome
  replace hboth : ¬ (pca = .finished true ∧ pcb = .finished true) := hboth
  cases w
  case A =>
    cases pca with
    | finished r =>
      show LockInv n ⟨sen, clock + 1, ⟨.finished r, fa⟩, ⟨pcb, fb⟩⟩
      rw [lockInv_mk]
      exact ⟨by omega, hpa, hpb, fun m hm => by have := hfresh m hm; omega,
        fun hd => hsome hd, hboth⟩
    | tryCreate =>
      cases fa with
      | zero =>
        show LockInv n ⟨sen, clock + 1, ⟨.finished false, 0⟩, ⟨pcb, fb⟩⟩
        rw [lockInv_mk]
        refine ⟨by omega, (fun hx => nomatch hx), hpb,
          fun m hm => by have := hfresh m hm; omega, ?_, ?_⟩
        · intro hd
          rcases hd with hx | hx
          · exact nomatch hx
          · exact hsome (Or.inr hx)
        · intro hc
          exact nomatch hc.1
      | succ f =>
        cases sen with
        | none =>
          show LockInv n ⟨some clock, clock + 1, ⟨.finished true, f⟩, ⟨pcb, fb⟩⟩
          rw [lockInv_mk]
          refine ⟨by omega, (fun hx => nomatch hx), hpb, ?_, ?_, ?_⟩
          · intro m hm
            injection hm with hm2
            omega
          · intro _
            exact fun hx => nomatch hx
          · intro hc
            exact hsome (Or.inr hc.2) rfl
        | some m0 =>
          show LockInv n ⟨some m0, clock + 1, ⟨.statCheck, f + 1⟩, ⟨pcb, fb⟩⟩
          rw [lockInv_mk]
          refine ⟨by omega, (fun hx => nomatch hx), hpb,
            fun m hm => by have := hfresh m hm; omega, ?_, ?_⟩
          · intro _
            exact fun hx => nomatch hx
          · intro hc
            exact nomatch hc.1
    | statCheck =>
      cases sen with
      | none =>
        show LockInv n ⟨none, clock + 1, ⟨.sleepRetry, fa⟩, ⟨pcb, fb⟩⟩
        rw [lockInv_mk]
        refine ⟨by omega, (fun hx => nomatch hx), hpb,
          (fun m hm => nomatch hm), ?_, ?_⟩
        · intro hd
          rcases hd with hx | hx
          · exact nomatch hx
          · exact hsome (Or.inr hx)
        · intro hc
          exact nomatch hc.1
      | some m0 =>
        have hcond : ¬ clock - m0 > 300 := by
          have := hfresh m0 rfl
          omega
        have estep : sysStep ⟨some m0, clock, ⟨.statCheck, fa⟩, ⟨pcb, fb⟩⟩ .A =
            ⟨some m0, clock + 1, ⟨.sleepRetry, fa⟩, ⟨pcb, fb⟩⟩ := by
          simp only [sysStep, lockStep]
          rw [if_neg hcond]
        rw [estep, lockInv_mk]
        refine ⟨by omega, (fun hx => nomatch hx), hpb,
          fun m hm => by have := hfresh m hm; omega, ?_, ?_⟩
        · intro _
          exact fun hx => nomatch hx
        · intro hc
          exact nomatch hc.1
    | unlinkStale => exact absurd rfl hpa
    | sleepRetry =>
      show LockInv n ⟨sen, clock + 1, ⟨.tryCreate, fa - 1⟩, ⟨pcb, fb⟩⟩
      rw [lockInv_mk]
      refine ⟨by omega, (fun hx => nomatch hx), hpb,
        fun m hm => by have := hfresh m hm; omega, ?_, ?_⟩
      · intro hd
        rcases hd with hx | hx
        · exact nomatch hx
        · exact hsome (Or.inr hx)
      · intro hc
        exact nomatch hc.1
  case B =>
    cases pcb with
    | finished r =>
      show LockInv n ⟨sen, clock + 1, ⟨pca, fa⟩, ⟨.finished r, fb⟩⟩
      rw [lockInv_mk]
      exact ⟨by omega, hpa, hpb, fun m hm => by have := hfresh m hm; omega,
        fun hd => hsome hd, hboth⟩
    | tryCreate =>
      cases fb with
      | zero =>
        show LockInv n ⟨sen, clock + 1, ⟨pca, fa⟩, ⟨.finished false, 0⟩⟩
        rw [lockInv_mk]
        refine ⟨by omega, hpa, (fun hx => nomatch hx),
          fun m hm => by have := hfresh m hm; omega, ?_, ?_⟩
        · intro hd
          rcases hd with hx | hx
          · exact hsome (Or.inl hx)
          · exact nomatch hx
        · intro hc
          exact nomatch hc.2
      | succ f =>
        cases sen with
        | none =>
          show LockInv n ⟨some clock, clock + 1, ⟨pca, fa⟩, ⟨.finished true, f⟩⟩
          rw [lockInv_mk]
          refine ⟨by omega, hpa, (fun hx => nomatch hx), ?_, ?_, ?_⟩
          · intro m hm
            injection hm with hm2
            omega
          · intro _
            exact fun hx => nomatch hx
          · intro hc
            exact hsome (Or.inl hc.1) rfl
        | some m0 =>
          show LockInv n ⟨some m0, clock + 1, ⟨pca, fa⟩, ⟨.statCheck, f + 1⟩⟩
          rw [lockInv_mk]
          refine ⟨by omega, hpa, (fun hx => nomatch hx),
            fun m hm => by have := hfresh m hm; omega, ?_, ?_⟩
          · intro _
            exact fun hx => nomatch hx
          · intro hc
            exact nomatch hc.2
    | statCheck =>
      cases sen with
      | none =>
        show LockInv n ⟨none, clock + 1, ⟨pca, fa⟩, ⟨.sleepRetry, fb⟩⟩
        rw [lockInv_mk]
        refine ⟨by omega, hpa, (fun hx => nomatch hx),
          (fun m hm => nomatch hm), ?_, ?_⟩
        · intro hd
          rcases hd with hx | hx
          · exact hsome (Or.inl hx)
          · exact nomatch hx
        · intro hc
          exact nomatch hc.2
      | some m0 =>
        have hcond : ¬ clock - m0 > 300 := by
          have := hfresh m0 rfl
          omega
        have estep : sysStep ⟨some m0, clock, ⟨pca, fa⟩, ⟨.statCheck, fb⟩⟩ .B =
            ⟨some m0, clock + 1, ⟨pca, fa⟩, ⟨.sleepRetry, fb⟩⟩ := by
          simp only [sysStep, lockStep]
          rw [if_neg hcond]
        rw [estep, lockInv_mk]
        refine ⟨by omega, hpa, (fun hx => nomatch hx),
          fun m hm => by have := hfresh m hm; omega, ?_, ?_⟩
        · intro _
          exact fun hx => nomatch hx
        · intro hc
          exact nomatch hc.2
    | unlinkStale => exact absurd rfl hpb
    | sleepRetry =>
      show LockInv n ⟨sen, clock + 1, ⟨pca, fa⟩, ⟨.tryCreate, fb - 1⟩⟩
      rw [lockInv_mk]
      refine ⟨by omega, hpa, (fun hx => nomatch hx),
        fun m hm => by have := hfresh m hm; omega, ?_, ?_⟩
      · intro hd
        rcases hd with hx | hx
        · exact hsome (Or.inl hx)
        · exact nomatch hx
      · intro hc
        exact nomatch hc.2

/-- Running a whole schedule preserves `LockInv` down to zero remaining
steps. -/
theorem lockInv_run (sched : List Caller) :
    ∀ s, LockInv sched.length s → LockInv 0 (sysRun s sched) := by
  induction sched with
  | nil => intro s h; exact h
  | cons w rest ih =>
    intro s h
    rw [sysRun, List.foldl_cons]
    exact ih (sysStep s w) (lockInv_step rest.length s w h)

/-- C7, amended.  Provided the staleness healing can never fire — the
sentinel is initially absent and both callers finish within the 300-unit
TTL, so every stat observes a fresh sentinel — two concurrent
`acquire_file_lock` callers never both return `True`, whatever the
interleaving and the timeout budgets: the atomic create-if-absent is then a
true serialization point. -/
theorem c7_amended (sched : List Caller) (c0 fa fb : Nat)
    (hlen : sched.length ≤ 300) :
    ¬ (succeeded (sysRun ⟨none, c0, ⟨.tryCreate, fa⟩, ⟨.tryCreate, fb⟩⟩
          sched).pa = true ∧
       succeeded (sysRun ⟨none, c0, ⟨.tryCreate, fa⟩, ⟨.tryCreate, fb⟩⟩
          sched).pb = true) := by
  intro hcontra
  have hinv0 : LockInv sched.length
      ⟨none, c0, ⟨.tryCreate, fa⟩, ⟨.tryCreate, fb⟩⟩ := by
    rw [lockInv_mk]
    refine ⟨hlen, (fun hx => nomatch hx), (fun hx => nomatch hx),
      (fun m hm => nomatch hm), ?_, ?_⟩
    · intro hd
      rcases hd with hx | hx
      · exact nomatch hx
      · exact nomatch hx
    · intro hc
      exact nomatch hc.1
  obtain ⟨-, -, -, -, -, hboth⟩ := lockInv_run sched _ hinv0
  apply hboth
  constructor
  · exact of_decide_eq_true hcontra.1
  · exact of_decide_eq_true hcontra.2

/-- C7, witness for the amended theorem: a short concrete schedule with no
pre-existing sentinel. -/
theorem c7_witness :
    ¬ (succeeded (sysRun ⟨none, 0, ⟨.tryCreate, 3⟩, ⟨.tryCreate, 3⟩⟩
          [.A, .B, .A, .B]).pa = true ∧
       succeeded (sysRun ⟨none, 0, ⟨.tryCreate, 3⟩, ⟨.tryCreate, 3⟩⟩
          [.A, .B, .A, .B]).pb = true) :=
  c7_amended [.A, .B, .A, .B] 0 3 3 (by decide)

end SelfEvolution
